import Mathlib

set_option maxRecDepth 40000

/-!
Verification development for the QDOGE airdrop backend (`be/app`).

The definitions below are shallow embeddings of the Python source:
`app/services/airdrop.py` (weights and largest-remainder allocation),
`app/core/qubic.py` (identity codec), `app/core/roles.py` (role resolver),
`app/api/public.py` (funding / trade-in confirmation steps) and
`app/services/rpc.py` (transaction polling loop).

CPython's `float` is an IEEE-754 binary64 value.  The allocation routine
`_largest_remainder_allocation` computes `pool * (w_i / total_w)` with float
division and multiplication, so the embedding models binary64 values exactly:
a `PyFloat` is a dyadic rational `m * 2^e`, and every operation rounds to 53
significant bits with round-to-nearest, ties-to-even (subnormals at the
2^-1074 limit included; overflow to infinity is not modelled, which is
faithful for every magnitude below 2^1024 and in particular for all inputs
evaluated here).
-/

/-- Fuel-driven floor-log2 helper: `natLog2F f n` is `⌊log₂ n⌋` whenever
`f` is at least the recursion depth and `n ≥ 1`. -/
def natLog2F : Nat → Nat → Nat
  | 0, _ => 0
  | f + 1, n => if n ≤ 1 then 0 else natLog2F f (n / 2) + 1

/-- Floor of `log₂ n` for `n ≥ 1` (fuel 1100 covers every magnitude that a
binary64 computation can produce). -/
def natLog2 (n : Nat) : Nat := natLog2F 1100 n

/-- Round-to-nearest, ties-to-even integer quotient of `a / b` (for `b > 0`). -/
def rneNat (a b : Nat) : Nat :=
  let q := a / b
  let r := a % b
  if 2 * r < b then q
  else if b < 2 * r then q + 1
  else if q % 2 == 0 then q else q + 1

/-- An IEEE-754 binary64 value, represented exactly as `m * 2^e`. -/
structure PyFloat where
  m : Int
  e : Int
deriving DecidableEq

/-- Decides whether `a / den ≥ 2^k` (for `den > 0`). -/
def gePow2 (a den : Nat) (k : Int) : Bool :=
  if 0 ≤ k then decide (2 ^ k.toNat * den ≤ a) else decide (den ≤ a * 2 ^ (-k).toNat)

/-- Round the real value `(num / den) * 2^e2` (with `den > 0`) to the nearest
binary64 value, ties to even. -/
def roundVal (num : Int) (den : Nat) (e2 : Int) : PyFloat :=
  if num = 0 ∨ den = 0 then ⟨0, 0⟩
  else
    let a := num.natAbs
    let sgn : Int := if num < 0 then -1 else 1
    let e0 : Int := (natLog2 a : Int) - (natLog2 den : Int)
    let ex : Int :=
      if gePow2 a den (e0 + 1) then e0 + 1
      else if gePow2 a den e0 then e0 else e0 - 1
    let prec := max (ex + e2) (-1022)
    let shift := prec - 52
    let k := e2 - shift
    let A := if 0 ≤ k then a * 2 ^ k.toNat else a
    let B := if 0 ≤ k then den else den * 2 ^ (-k).toNat
    ⟨sgn * (rneNat A B : Int), shift⟩

/-- CPython conversion of an arbitrary-precision `int` to `float`
(`PyLong_AsDouble`): correctly rounded, ties to even. -/
def pyFloatOfInt (n : Int) : PyFloat := roundVal n 1 0

/-- CPython true division `a / b` of two ints: the correctly rounded
binary64 quotient. -/
def pyDivInts (a b : Int) : PyFloat :=
  if b = 0 then ⟨0, 0⟩
  else if b < 0 then roundVal (-a) b.natAbs 0
  else roundVal a b.natAbs 0

/-- IEEE binary64 multiplication (one correctly rounded operation). -/
def pyMulFF (x y : PyFloat) : PyFloat := roundVal (x.m * y.m) 1 (x.e + y.e)

/-- IEEE binary64 subtraction (exact difference, then one rounding). -/
def pySubFF (x y : PyFloat) : PyFloat :=
  let e := min x.e y.e
  roundVal (x.m * 2 ^ (x.e - e).toNat - y.m * 2 ^ (y.e - e).toNat) 1 e

/-- CPython `int * float`: the int is first converted to binary64, then an
IEEE multiplication is performed. -/
def pyMulIntFloat (p : Int) (x : PyFloat) : PyFloat := pyMulFF (pyFloatOfInt p) x

/-- CPython `float - int`: the int is converted to binary64, then an IEEE
subtraction is performed. -/
def pySubFloatInt (x : PyFloat) (n : Int) : PyFloat := pySubFF x (pyFloatOfInt n)

/-- CPython `int(x)` on a float: truncation toward zero. -/
def pyTruncFloat (x : PyFloat) : Int :=
  if 0 ≤ x.e then x.m * 2 ^ x.e.toNat
  else if 0 ≤ x.m then (x.m.natAbs / 2 ^ (-x.e).toNat : Nat)
  else -((x.m.natAbs / 2 ^ (-x.e).toNat : Nat) : Int)

/-- Numeric `<` on binary64 values. -/
def pyFloatLt (x y : PyFloat) : Bool :=
  let e := min x.e y.e
  decide (x.m * 2 ^ (x.e - e).toNat < y.m * 2 ^ (y.e - e).toNat)

/-- Numeric `==` on binary64 values. -/
def pyFloatEq (x y : PyFloat) : Bool :=
  let e := min x.e y.e
  decide (x.m * 2 ^ (x.e - e).toNat = y.m * 2 ^ (y.e - e).toNat)

/-!
## Largest-remainder allocation (`app/services/airdrop.py`)

Python dicts preserve insertion order and have unique keys, so a weight map
is embedded as an association list `List (String × Int)`; SQLite rows carry
Python `int`s, so balances are `Int`.
-/

/-- Sum of the values of an association list (`sum(d.values())`). -/
def sumValues (l : List (String × Int)) : Int := (l.map (·.2)).sum

/-- Code-point lexicographic `<` on strings, as Python compares `str`. -/
def lexLtChars : List Char → List Char → Bool
  | [], [] => false
  | [], _ :: _ => true
  | _ :: _, [] => false
  | c :: cs, d :: ds =>
    decide (c.toNat < d.toNat) || (c.toNat == d.toNat && lexLtChars cs ds)

/-- Python string `<`. -/
def strLtB (a b : String) : Bool := lexLtChars a.data b.data

/-- Comparison used by `remainders.sort(key=lambda x: (-x[1], x[0]))`:
remainder descending, then wallet id ascending. -/
def remLe (a b : String × PyFloat) : Bool :=
  if pyFloatEq a.2 b.2 then strLtB a.1 b.1 || a.1 == b.1 else pyFloatLt b.2 a.2

/-- Stable insertion step for `sortByLe`. -/
def insertSorted (le : α → α → Bool) (x : α) : List α → List α
  | [] => [x]
  | y :: ys => if le x y then x :: y :: ys else y :: insertSorted le x ys

/-- Sorting by a boolean `≤` test (the comparator used below is a strict
total order on distinct dict keys, so the sorted list is the same one
`list.sort` produces). -/
def sortByLe (le : α → α → Bool) (l : List α) : List α :=
  l.foldr (insertSorted le) []

/-- Increment `floors[k]` on an association list with unique keys. -/
def incKey : List (String × Int) → String → List (String × Int)
  | [], _ => []
  | (k, v) :: rest, t =>
    if k == t then (k, v + 1) :: rest else (k, v) :: incKey rest t

/-- The loop `for i in range(remaining): floors[remainders[i % len(remainders)][0]] += 1`. -/
def distributeRemaining (keysSorted : List String) :
    Nat → Nat → List (String × Int) → List (String × Int)
  | 0, _, fl => fl
  | n + 1, i, fl =>
    distributeRemaining keysSorted n (i + 1)
      (incKey fl (keysSorted.getD (i % keysSorted.length) ""))

/-- The float floor step of `_largest_remainder_allocation`:
`int(pool * (w_i / total_w))` computed in binary64 arithmetic. -/
def pyFloorShare (pool wI totalW : Int) : Int :=
  pyTruncFloat (pyMulIntFloat pool (pyDivInts wI totalW))

/-- Embedding of `_largest_remainder_allocation(pool, weights)` from
`app/services/airdrop.py` (lines 64–97), operation by operation;
`exact = pool * (w_i / total_w)` is binary64 arithmetic in the source. -/
def largestRemainderAllocation (pool : Int) (weights : List (String × Int)) :
    List (String × Int) :=
  if pool ≤ 0 ∨ weights.isEmpty then weights.map (fun p => (p.1, 0))
  else
    let totalW := (weights.map (fun p => max 0 p.2)).sum
    if totalW ≤ 0 then weights.map (fun p => (p.1, 0))
    else
      let entries := weights.map (fun p =>
        let wI := max 0 p.2
        let exact := pyMulIntFloat pool (pyDivInts wI totalW)
        let fl := pyTruncFloat exact
        (p.1, fl, pySubFloatInt exact fl))
      let floors := entries.map (fun t => (t.1, t.2.1))
      let remaining := pool - (entries.map (fun t => t.2.1)).sum
      if remaining ≤ 0 then floors
      else
        let sortedRems := sortByLe remLe (entries.map (fun t => (t.1, t.2.2)))
        distributeRemaining (sortedRems.map (·.1)) remaining.toNat 0 floors

/-- Modelled from the spec: the floor step as the spec states it,
`floor(pool * weight / totalWeight)` using exact integer division on the
product `pool * weight`. -/
def specFloorShare (pool wI totalW : Int) : Int := Int.fdiv (pool * wI) totalW

/-!
## Identity codec (`app/core/qubic.py`)

Python strings are embedded as `List Char` and the string primitives used by
the codec (`strip`, `upper`, the `^[A-Z]{60}$` regex) are modelled
character-wise with their ASCII semantics.
-/

/-- ASCII part of Python `str.upper` on one character. -/
def pyCharUpper (c : Char) : Char :=
  if 97 ≤ c.toNat ∧ c.toNat ≤ 122 then Char.ofNat (c.toNat - 32) else c

/-- ASCII part of Python `str.lower` on one character. -/
def pyCharLower (c : Char) : Char :=
  if 65 ≤ c.toNat ∧ c.toNat ≤ 90 then Char.ofNat (c.toNat + 32) else c

/-- ASCII whitespace stripped by Python `str.strip()`. -/
def pyIsSpace (c : Char) : Bool :=
  c.toNat == 32 || c.toNat == 9 || c.toNat == 10 || c.toNat == 13 ||
  c.toNat == 11 || c.toNat == 12

/-- Python `str.strip()`: drop whitespace from both ends. -/
def pyStripChars (s : List Char) : List Char :=
  ((s.dropWhile pyIsSpace).reverse.dropWhile pyIsSpace).reverse

/-- Python `str.upper()` (ASCII), character-wise. -/
def pyUpperChars (s : List Char) : List Char := s.map pyCharUpper

/-- The regex `^[A-Z]{60}$` from `_ID_RE`. -/
def matchesIdRe (s : List Char) : Bool :=
  s.length == 60 && s.all (fun c => 65 ≤ c.toNat && c.toNat ≤ 90)

/-- Embedding of `normalize_identity`: strip, uppercase, then validate
against the 60-uppercase-letter shape; `none` models the
`ValueError("invalid identity format")`. -/
def normalizeIdentity (s : List Char) : Option (List Char) :=
  let val := pyUpperChars (pyStripChars s)
  if matchesIdRe val then some val else none

/-- Value of one 14-character base-26 chunk, first character least
significant (the `n += digit * mul; mul *= 26` loop). -/
def chunkVal (cs : List Char) : Int :=
  cs.foldr (fun c acc => ((c.toNat : Int) - 65) + 26 * acc) 0

/-- Embedding of `int(n).to_bytes(8, byteorder="little", signed=False)`:
eight little-endian bytes; raises `OverflowError` (modelled as `none`)
unless `0 ≤ n < 2^64`. -/
def toBytes8 (n : Int) : Option (List Int) :=
  if 0 ≤ n ∧ n < 2 ^ 64 then
    some [n.emod 256, (n.ediv 256).emod 256, (n.ediv 65536).emod 256,
          (n.ediv 16777216).emod 256, (n.ediv 4294967296).emod 256,
          (n.ediv 1099511627776).emod 256, (n.ediv 281474976710656).emod 256,
          (n.ediv 72057594037927936).emod 256]
  else none

/-- Decode one chunk: every digit must lie in `0..25` (the in-loop range
check of the source, folded into one test) and the value must fit eight
bytes. -/
def decodeChunk (cs : List Char) : Option (List Int) :=
  if cs.all (fun c => 65 ≤ c.toNat && c.toNat ≤ 90) then toBytes8 (chunkVal cs)
  else none

/-- Embedding of `identity_to_public_key_bytes`: normalize, then decode
the four 14-character chunks of the first 56 characters into 32 bytes. -/
def identityToPublicKeyBytes (s : List Char) : Option (List Int) :=
  match normalizeIdentity s with
  | none => none
  | some val =>
    let core := val.take 56
    match decodeChunk (core.take 14), decodeChunk ((core.drop 14).take 14),
          decodeChunk ((core.drop 28).take 14), decodeChunk ((core.drop 42).take 14) with
    | some b0, some b1, some b2, some b3 => some (b0 ++ b1 ++ b2 ++ b3)
    | _, _, _, _ => none

/-- All four chunks of a (already valid) identity fit eight bytes. -/
def chunksFitB (s : List Char) : Bool :=
  [(s.take 56).take 14, ((s.take 56).drop 14).take 14,
   ((s.take 56).drop 28).take 14, ((s.take 56).drop 42).take 14].all
    (fun cs => decide (chunkVal cs < 2 ^ 64))

/-!
## Role resolver (`app/core/roles.py`)
-/

/-- Python `str.lower()` (ASCII) on a `String`. -/
def strLower (s : String) : String := ⟨s.data.map pyCharLower⟩

/-- Python `str.strip()` on a `String`. -/
def strStrip (s : String) : String := ⟨pyStripChars s.data⟩

/-- The tuple `ROLE_ORDER = ("admin", "power", "portal", "community")`. -/
def ROLE_ORDER : List String := ["admin", "power", "portal", "community"]

/-- Embedding of `normalize_roles`: strip/lowercase, de-duplicate
preserving first occurrence, admin wins exclusively, otherwise order by
`ROLE_ORDER` with unknown roles sorted lexically, defaulting to
`("community",)`. -/
def normalizeRoles (raw : List String) : List String :=
  let seen := raw.foldl (fun acc r =>
    let v := strLower (strStrip r)
    if v = "" ∨ acc.contains v then acc else acc ++ [v]) []
  if seen.contains "admin" then ["admin"]
  else
    let ordered := ROLE_ORDER.filter (fun r => seen.contains r)
    let extras := sortByLe (fun a b => strLtB a b || a == b)
      (seen.filter (fun r => !ROLE_ORDER.contains r))
    let out := ordered ++ extras
    if out.isEmpty then ["community"] else out

/-- The slice of `Settings` (`app/core/config.py`) that the embedded
functions read.  The pools are the integer budgets the dataclass properties
expose; `admin_wallets` is the configured admin allow-list and
`power_users` the code-defined power-user map. -/
structure QSettings where
  funding_cap_qu : Int
  community_pool : Int
  portal_pool : Int
  power_pool : Int
  tradein_pool : Int
  tradein_ratio_qdoge_per_qxmr : Int
  admin_wallets : List String
  power_users : List (String × Int)
deriving DecidableEq

/-- Value of `getattr(settings, "admin_wallet_id", "")` in `resolve_roles`:
the `Settings` dataclass of `app/core/config.py` defines `admin_wallets`
but no `admin_wallet_id` attribute, so the lookup always returns the
default `""`. -/
def settingsAdminWalletId (_ : QSettings) : String := ""

/-- Embedding of `resolve_roles(wallet_id=..., settings=..., portal_bal=...)`
from `app/core/roles.py` (lines 38–47). -/
def resolveRoles (s : QSettings) (wallet_id : String) (portal_bal : Int) :
    List String :=
  if settingsAdminWalletId s ≠ "" ∧ wallet_id = settingsAdminWalletId s then
    ["admin"]
  else
    normalizeRoles (["community"]
      ++ (if 0 < portal_bal then ["portal"] else [])
      ++ (if (s.power_users.map (·.1)).contains wallet_id then ["power"] else []))

/-!
## Database-backed weights and allocations (`app/services/airdrop.py`,
tables from `app/core/db.py`)

The SQLite state read by the weight queries is embedded as lists of rows;
`wallet_id` is the primary key of the snapshot tables and `tx_id` the
primary key of `fundings` and `tradeins`.
-/

/-- A row of the `fundings` table (`tx_id` primary key). -/
structure FundingRow where
  txId : String
  walletId : String
  amountSent : Int
  credited : Int
  tick : Int
deriving DecidableEq

/-- A row of the `tradeins` table (`tx_id` primary key). -/
structure TradeinRow where
  txId : String
  walletId : String
  qxmr : Int
  qdoge : Int
  tick : Int
deriving DecidableEq

/-- The tables read by the allocation engine and the confirmation
endpoints.  `users` holds `(wallet_id, access_info)`; the three snapshot
tables hold `(wallet_id, amount)`. -/
structure Db where
  users : List (String × Int)
  fundings : List FundingRow
  qearn_snapshot : List (String × Int)
  portal_snapshot : List (String × Int)
  power_snapshot : List (String × Int)
  tradeins : List TradeinRow
deriving DecidableEq

/-- The query `SELECT COALESCE(SUM(amount_credited),0) FROM fundings WHERE wallet_id = ?`. -/
def fundedTotal (rows : List FundingRow) (w : String) : Int :=
  ((rows.filter (fun r => r.walletId == w)).map (·.credited)).sum

/-- Lookup with `COALESCE(amount, 0)` in a snapshot table keyed by `wallet_id`. -/
def lookupAmount (snap : List (String × Int)) (w : String) : Int :=
  (((snap.find? (fun p => p.1 == w)).map (·.2))).getD 0

/-- Python `str.upper()` (ASCII) on a `String`. -/
def strUpper (s : String) : String := ⟨s.data.map pyCharUpper⟩

/-- Embedding of `_user_weight_scaled` from `app/services/airdrop.py`
(lines 37–55): `70*funded_capped + 3*((10-p)*qearn + p*role_assets)`,
all integer math. -/
def userWeightScaled (funded_qu qearn role_assets prob_role_tenths
    funding_cap_qu : Int) : Int :=
  let funded_capped := min (max 0 funded_qu) (max 0 funding_cap_qu)
  let qearn_i := max 0 qearn
  let role_assets_i := max 0 role_assets
  let p := max 0 (min 10 prob_role_tenths)
  70 * funded_capped + 3 * ((10 - p) * qearn_i + p * role_assets_i)

/-- Constant `PROB_POWER_TENTHS = 7`. -/
def PROB_POWER_TENTHS : Int := 7

/-- Constant `PROB_PORTAL_TENTHS = 4`. -/
def PROB_PORTAL_TENTHS : Int := 4

/-- Constant `PROB_COMMUNITY_TENTHS = 0`. -/
def PROB_COMMUNITY_TENTHS : Int := 0

/-- Embedding of `get_weights_community`: registered users
(`access_info = 1`), weight from fundings and the qearn snapshot with
`prob = 0`; only positive weights are kept, keys uppercased. -/
def getWeightsCommunity (db : Db) (s : QSettings) : List (String × Int) :=
  (db.users.filter (fun u => u.2 == 1)).filterMap (fun u =>
    let weight := userWeightScaled (fundedTotal db.fundings u.1)
      (lookupAmount db.qearn_snapshot u.1) 0 PROB_COMMUNITY_TENTHS
      s.funding_cap_qu
    if 0 < weight then some (strUpper u.1, weight) else none)

/-- The `WITH wallets AS (SELECT ... UNION SELECT ...)` row set: registered
users plus snapshot wallets, de-duplicated (`UNION` is distinct; the row
order is modelled as first occurrence). -/
def unionWallets (a b : List String) : List String :=
  (a ++ b).foldl (fun acc w => if acc.contains w then acc else acc ++ [w]) []

/-- Wallets of registered users (`access_info = 1`). -/
def registeredWallets (db : Db) : List String :=
  (db.users.filter (fun u => u.2 == 1)).map (·.1)

/-- Embedding of `get_weights_portal`: registered users union the portal
snapshot, weight with `role_assets = portal_amount` and `prob = 4`. -/
def getWeightsPortal (db : Db) (s : QSettings) : List (String × Int) :=
  (unionWallets (registeredWallets db) (db.portal_snapshot.map (·.1))).filterMap
    (fun w =>
      let wgt := userWeightScaled (fundedTotal db.fundings w)
        (lookupAmount db.qearn_snapshot w) (lookupAmount db.portal_snapshot w)
        PROB_PORTAL_TENTHS s.funding_cap_qu
      if 0 < wgt then some (strUpper w, wgt) else none)

/-- Embedding of `get_weights_power`: registered users union the power
snapshot, weight with `role_assets = qxmr_amount` and `prob = 7`. -/
def getWeightsPower (db : Db) (s : QSettings) : List (String × Int) :=
  (unionWallets (registeredWallets db) (db.power_snapshot.map (·.1))).filterMap
    (fun w =>
      let wgt := userWeightScaled (fundedTotal db.fundings w)
        (lookupAmount db.qearn_snapshot w) (lookupAmount db.power_snapshot w)
        PROB_POWER_TENTHS s.funding_cap_qu
      if 0 < wgt then some (strUpper w, wgt) else none)

/-- The three per-category allocation maps returned by
`compute_allocations`. -/
structure Allocations where
  community : List (String × Int)
  portal : List (String × Int)
  power : List (String × Int)
deriving DecidableEq

/-- Embedding of `compute_allocations` from `app/services/airdrop.py`
(lines 205–220): recompute the three weight maps and allocate each pool by
largest remainder.  There is no caching layer in the source. -/
def computeAllocations (db : Db) (s : QSettings) : Allocations :=
  ⟨largestRemainderAllocation s.community_pool (getWeightsCommunity db s),
   largestRemainderAllocation s.portal_pool (getWeightsPortal db s),
   largestRemainderAllocation s.power_pool (getWeightsPower db s)⟩

/-- Version of `compute_allocations` instrumented with a counter that
ticks once per `get_weights_*` call, the "injected call counter"
observation point the spec describes for cache tests. -/
def computeAllocationsCounted (db : Db) (s : QSettings) (n : Nat) :
    Allocations × Nat :=
  let cw := (getWeightsCommunity db s, n + 1)
  let pw := (getWeightsPortal db s, cw.2 + 1)
  let qw := (getWeightsPower db s, pw.2 + 1)
  (⟨largestRemainderAllocation s.community_pool cw.1,
    largestRemainderAllocation s.portal_pool pw.1,
    largestRemainderAllocation s.power_pool qw.1⟩, qw.2)

/-- Modelled from the spec: the community weight as the spec's sentence
states it, `min(qubic_bal, qubic_cap) + max(0, qearn_bal)`. -/
def specCommunityWeight (qubic_bal qubic_cap qearn_bal : Int) : Int :=
  min qubic_bal qubic_cap + max 0 qearn_bal

/-- Modelled from the spec: the portal allocation as the spec states it,
`floor(portal_pool * portal_bal / portal_total_supply)` per eligible wallet
(a fixed-denominator share; no such computation or `portal_total_supply`
setting exists in the source). -/
def specPortalAllocation (portal_pool portal_bal portal_total_supply : Int) : Int :=
  Int.fdiv (portal_pool * portal_bal) portal_total_supply

/-!
## Trade-in and funding confirmation steps (`app/api/public.py`)

The endpoints are modelled at the point where a claim has passed every
payload/transaction check: the database write section that enforces the
pool budget (trade-in, lines 428–442) and the funding cap credit
(lines 327–344).  `INSERT OR IGNORE` on the `tx_id` primary key is an
insert-if-absent.
-/

/-- Sum of `qdoge_amount` over `tradeins`
(`SELECT COALESCE(SUM(qdoge_amount),0) FROM tradeins`). -/
def tradeinsTotal (rows : List TradeinRow) : Int := (rows.map (·.qdoge)).sum

/-- Embedding of `INSERT OR IGNORE INTO tradeins(...)`: keep the table
unchanged when a row with the same `tx_id` exists. -/
def insertIgnoreTradein (rows : List TradeinRow) (r : TradeinRow) :
    List TradeinRow :=
  if rows.any (fun x => x.txId == r.txId) then rows else rows ++ [r]

/-- Outcome of the trade-in write section. -/
inductive TradeinOutcome where
  | accepted (rows : List TradeinRow)
  | rejected (reason : String)
deriving DecidableEq

/-- Whether a trade-in outcome is an acceptance. -/
def isAcceptedTradein : TradeinOutcome → Bool
  | .accepted _ => true
  | .rejected _ => false

/-- The write section of `confirm_tradein`: `qdoge_amount = shares * ratio_setting`;
reject with `"trade-in pool exhausted"` when
`total_tradein + qdoge_amount > settings.tradein_pool`, otherwise record the
claim idempotently on `tx_id`. -/
def confirmTradeinDb (pool rate : Int) (rows : List TradeinRow)
    (txId wallet : String) (shares tick : Int) : TradeinOutcome :=
  let qdoge := shares * rate
  if tradeinsTotal rows + qdoge > pool then .rejected "trade-in pool exhausted"
  else .accepted (insertIgnoreTradein rows ⟨txId, wallet, shares, qdoge, tick⟩)

/-- A trade-in claim that already passed all payload checks. -/
structure TradeinClaim where
  txId : String
  walletId : String
  shares : Int
  tick : Int

/-- A sequence of validated trade-in claims processed one by one; a
rejected claim leaves the table unchanged. -/
def runTradeins (pool rate : Int) (rows : List TradeinRow) :
    List TradeinClaim → List TradeinRow
  | [] => rows
  | c :: cs =>
    match confirmTradeinDb pool rate rows c.txId c.walletId c.shares c.tick with
    | .accepted rows' => runTradeins pool rate rows' cs
    | .rejected _ => runTradeins pool rate rows cs

/-- Embedding of `INSERT OR IGNORE INTO fundings(...)`. -/
def insertIgnoreFunding (rows : List FundingRow) (r : FundingRow) :
    List FundingRow :=
  if rows.any (fun x => x.txId == r.txId) then rows else rows ++ [r]

/-- The credit section of `confirm_funding`:
`prev = SUM(amount_credited)`, `remaining = max(0, cap - prev)`,
`credited = min(amount_sent, remaining)`, then an idempotent insert;
returns the new table and the credited amount. -/
def confirmFundingDb (cap : Int) (rows : List FundingRow)
    (txId wallet : String) (amount_sent tick : Int) : List FundingRow × Int :=
  let prev := fundedTotal rows wallet
  let remaining := max 0 (cap - prev)
  let credited := min amount_sent remaining
  (insertIgnoreFunding rows ⟨txId, wallet, amount_sent, credited, tick⟩, credited)

/-- A funding confirmation that already passed every transaction check. -/
structure FundingReq where
  txId : String
  walletId : String
  amountSent : Int
  tick : Int

/-- A sequence of accepted funding confirmations processed one by one. -/
def runFundings (cap : Int) (rows : List FundingRow) :
    List FundingReq → List FundingRow
  | [] => rows
  | c :: cs =>
    runFundings cap (confirmFundingDb cap rows c.txId c.walletId c.amountSent c.tick).1 cs

/-!
## Transaction polling (`app/services/rpc.py`, `get_tx_details`)

The loop is modelled for runs in which every RPC call succeeds: the
environment maps an attempt number and a transfer-history URL to the list
of transaction groups that query returns, and the model counts each
transfer-history query it issues.  (`get_tick` calls are not
transfer-history queries and are not counted.)
-/

/-- One entry of a transfer-history group: the inner transaction's `txId`
together with the group-level `moneyFlew` flag. -/
structure TxEntry where
  txId : String
  moneyFlew : Bool
deriving DecidableEq

/-- The RPC responses: `history attempt url` is the group list returned by
`GET url?startTick=...&endTick=...` during the given attempt. -/
structure PollEnv where
  history : Nat → String → List (List TxEntry)

/-- The list `transfer_paths`: the two endpoint variants tried for an identity. -/
def transferPaths (rpcBase identity : String) : List String :=
  [rpcBase ++ "/v2/identities/" ++ identity ++ "/transfers",
   rpcBase ++ "/v1/identities/" ++ identity ++ "/transfers"]

/-- Scan the groups of one response: in each group take the first entry
whose `txId` matches; a finalized match returns it, a pending match breaks
to the next group (`break` leaves only the entry loop). -/
def scanGroups (target : String) : List (List TxEntry) → Option TxEntry
  | [] => none
  | g :: gs =>
    match g.find? (fun e => e.txId == target) with
    | some e => if e.moneyFlew then some e else scanGroups target gs
    | none => scanGroups target gs

/-- Query each endpoint variant in order during one attempt, counting the
queries; a finalized match returns immediately. -/
def scanPaths (env : PollEnv) (attempt : Nat) (target : String) :
    List String → Option TxEntry × Nat
  | [] => (none, 0)
  | url :: rest =>
    match scanGroups target (env.history attempt url) with
    | some e => (some e, 1)
    | none =>
      let r := scanPaths env attempt target rest
      (r.1, r.2 + 1)

/-- Result of the polling loop. -/
inductive PollResult where
  | found (e : TxEntry)
  | failed (msg : String)
deriving DecidableEq

/-- The retry loop of `get_tx_details` over the attempt numbers
`1..max_retries`: after an attempt finds nothing,
`last_err = RpcError("transaction not found yet")`; when the attempts are
exhausted the last error is raised (or `"transaction lookup failed"` if no
attempt ran).  The second component counts transfer-history queries. -/
def pollGo (env : PollEnv) (target : String) (paths : List String) :
    List Nat → Option String → Nat → PollResult × Nat
  | [], lastErr, cnt => (.failed (lastErr.getD "transaction lookup failed"), cnt)
  | a :: rest, _, cnt =>
    match scanPaths env a target paths with
    | (some e, q) => (.found e, cnt + q)
    | (none, q) => pollGo env target paths rest (some "transaction not found yet") (cnt + q)

/-- Embedding of `get_tx_details(identity, tx_id, max_retries=...)`,
returning the outcome and the number of transfer-history queries issued. -/
def getTxDetailsModel (env : PollEnv) (rpcBase identity target : String)
    (maxRetries : Nat) : PollResult × Nat :=
  pollGo env target (transferPaths rpcBase identity)
    ((List.range maxRetries).map (· + 1)) none 0

/-!
## Concrete fixtures used by the evaluation theorems
-/

/-- A settings value with the default funding cap, the default admin
allow-list entry of `config.py`, small pool budgets and an empty power-user
map. -/
def exSettings : QSettings :=
  ⟨10000000000, 100, 100, 100, 1000, 100,
   ["KZFJRTYKJXVNPAYXQXUKMPKAHWWBWVWGLSFMEFOKPFJFWEDDXMCZVSPEOOZE"], []⟩

/-- One registered user `A` with no fundings and one unit of QEARN. -/
def exDbCommunity : Db := ⟨[("A", 1)], [], [("A", 1)], [], [], []⟩

/-- One registered user `A` with one credited funding unit and no portal
balance. -/
def exDbPortal : Db := ⟨[("A", 1)], [⟨"t1", "A", 1, 1, 0⟩], [], [], [], []⟩

/-- An empty database. -/
def exDbEmpty : Db := ⟨[], [], [], [], [], []⟩

/-- The default `ADMIN_WALLETS` entry of `app/core/config.py`. -/
def defaultAdminWallet : String :=
  "KZFJRTYKJXVNPAYXQXUKMPKAHWWBWVWGLSFMEFOKPFJFWEDDXMCZVSPEOOZE"

/-- A ledger environment whose transfer-history queries always succeed and
always return an empty group list. -/
def envEmptyPoll : PollEnv := ⟨fun _ _ => []⟩

/-!
## Theorems
-/

/-- C1.  The SUM INVARIANT fails on the code: `_largest_remainder_allocation`
computes the floor step in binary64 floating point, and at
`pool = 2^53 + 3` with the single positive weight `{"A": 1}` the float
rounding overshoots the pool, so the returned amounts sum to `pool + 1`
even though the total weight is positive. -/
theorem c1_sum_invariant_violated :
    0 < sumValues [("A", (1 : Int))]
    ∧ sumValues (largestRemainderAllocation 9007199254740995 [("A", 1)])
        = 9007199254740996
    ∧ (9007199254740996 : Int) ≠ 9007199254740995 := by decide

/-- C2.  The floor step of `_largest_remainder_allocation` is not integer
division: the source computes `int(pool * (w_i / total_w))` in binary64
floats, and at `pool = 2^53 + 3`, `weight = totalWeight = 1` the float
result differs from `floor(pool * weight / totalWeight)` computed by exact
integer division. -/
theorem c2_float_floor_step :
    pyFloorShare 9007199254740995 1 1 = 9007199254740996
    ∧ specFloorShare 9007199254740995 1 1 = 9007199254740995
    ∧ pyFloorShare 9007199254740995 1 1 ≠ specFloorShare 9007199254740995 1 1 := by
  decide

/-- C5.  The admin branch of `resolve_roles` is dead against the real
`Settings`: the dataclass defines `admin_wallets` but no `admin_wallet_id`
attribute, so `getattr(settings, "admin_wallet_id", "")` is always `""` and
the configured admin wallet resolves to `("community",)` instead of
`("admin",)`. -/
theorem c5_admin_branch_dead :
    defaultAdminWallet ∈ exSettings.admin_wallets
    ∧ resolveRoles exSettings defaultAdminWallet 0 = ["community"]
    ∧ (["community"] : List String) ≠ ["admin"] := by decide

/-- C6 counterexample.  A 60-letter lowercase identity is not rejected but
silently uppercased and accepted, and the valid 60-uppercase identity
`"Z"*60` makes `identity_to_public_key_bytes` fail (each 14-character chunk
of `Z`s has value `26^14 - 1 ≥ 2^64`, so `int.to_bytes(8, ...)` raises
`OverflowError`), refuting both halves of the claim. -/
theorem c6_counterexample :
    normalizeIdentity (List.replicate 60 'a') = some (List.replicate 60 'A')
    ∧ matchesIdRe (List.replicate 60 'Z') = true
    ∧ identityToPublicKeyBytes (List.replicate 60 'Z') = none := by decide

/-- C3 counterexample.  For a registered wallet with `funded = 0` and
`qearn = 1` the code's community weight is `30` (the `_user_weight_scaled`
formula), not `min(qubic_bal, qubic_cap) + max(0, qearn_bal) = 1` as the
claim states. -/
theorem c3_counterexample :
    getWeightsCommunity exDbCommunity exSettings = [("A", 30)]
    ∧ specCommunityWeight (fundedTotal exDbCommunity.fundings "A")
        exSettings.funding_cap_qu (lookupAmount exDbCommunity.qearn_snapshot "A") = 1
    ∧ (30 : Int) ≠ 1 := by decide

/-- C4 counterexample.  A registered wallet `A` with one credited funding
unit and zero portal balance receives the whole portal pool (100) from the
code's weight-based largest-remainder allocation, while the claimed
fixed-denominator share `floor(portal_pool * portal_bal / portal_total_supply)`
is `0` for every supply (shown at supply 1000). -/
theorem c4_counterexample :
    (computeAllocations exDbPortal exSettings).portal = [("A", 100)]
    ∧ lookupAmount exDbPortal.portal_snapshot "A" = 0
    ∧ specPortalAllocation exSettings.portal_pool 0 1000 = 0
    ∧ (100 : Int) ≠ 0 := by decide

/-- C9 counterexample.  `compute_allocations` has no cache: running it a
second time on an unchanged database performs three further weight
computations (one per `get_weights_*`), not zero as the claim states, even
though the returned maps are identical. -/
theorem c9_counterexample :
    (computeAllocationsCounted exDbEmpty exSettings
        ((computeAllocationsCounted exDbEmpty exSettings 0).2)).2
      - (computeAllocationsCounted exDbEmpty exSettings 0).2 = 3
    ∧ (computeAllocationsCounted exDbEmpty exSettings
        ((computeAllocationsCounted exDbEmpty exSettings 0).2)).1
      = (computeAllocationsCounted exDbEmpty exSettings 0).1
    ∧ (3 : Nat) ≠ 0 := by decide

/-- C9 amended.  Two `compute_allocations` calls on the same database state
return identical allocation maps (the function is a pure function of the
database and settings), and every call performs exactly three weight-map
computations — there is no caching layer. -/
theorem c9_amended (db : Db) (s : QSettings) (n m : Nat) :
    (computeAllocationsCounted db s n).1 = (computeAllocationsCounted db s m).1
    ∧ (computeAllocationsCounted db s n).1 = computeAllocations db s
    ∧ (computeAllocationsCounted db s n).2 = n + 3 :=
  ⟨rfl, rfl, rfl⟩

/-- The integer weight formula that `get_weights_community` actually uses:
`_user_weight_scaled` with `prob_role_tenths = 0`. -/
theorem userWeightScaled_community (f q cap : Int) :
    userWeightScaled f q 0 PROB_COMMUNITY_TENTHS cap
      = 70 * min (max 0 f) (max 0 cap) + 30 * max 0 q := by
  simp [userWeightScaled, PROB_COMMUNITY_TENTHS]
  ring

/-- The integer weight formula that `get_weights_portal` actually uses:
`_user_weight_scaled` with `prob_role_tenths = 4`. -/
theorem userWeightScaled_portal (f q r cap : Int) :
    userWeightScaled f q r PROB_PORTAL_TENTHS cap
      = 70 * min (max 0 f) (max 0 cap) + 3 * (6 * max 0 q + 4 * max 0 r) := by
  simp only [userWeightScaled, PROB_PORTAL_TENTHS]
  norm_num

/-- C3 amended.  A wallet appears in the community weight map exactly when
it is a registered user (`access_info = 1`) whose weight
`70*min(max(0,funded), max(0,funding_cap)) + 30*max(0,qearn)` is positive,
and its weight is that value — not
`min(qubic_bal, qubic_cap) + max(0, qearn_bal)`. -/
theorem c3_community_weight_amended (db : Db) (s : QSettings) (w : String) (v : Int) :
    (w, v) ∈ getWeightsCommunity db s ↔
      ∃ u ∈ db.users, u.2 = 1 ∧ w = strUpper u.1
        ∧ v = 70 * min (max 0 (fundedTotal db.fundings u.1)) (max 0 s.funding_cap_qu)
              + 30 * max 0 (lookupAmount db.qearn_snapshot u.1)
        ∧ 0 < v := by
  simp only [getWeightsCommunity, userWeightScaled_community, List.mem_filterMap,
    List.mem_filter, beq_iff_eq, Option.ite_none_right_eq_some, Option.some.injEq,
    Prod.mk.injEq]
  constructor
  · rintro ⟨u, ⟨hu, hacc⟩, hpos, hw, hv⟩
    exact ⟨u, hu, hacc, hw.symm, hv.symm, hv ▸ hpos⟩
  · rintro ⟨u, hu, hacc, hw, hv, hpos⟩
    exact ⟨u, ⟨hu, hacc⟩, hv ▸ hpos, hw.symm, hv.symm⟩

/-- C3 witness: the concrete database of `c3_counterexample` instantiates
the amended characterization. -/
theorem c3_community_weight_amended_witness :
    ("A", (30 : Int)) ∈ getWeightsCommunity exDbCommunity exSettings :=
  (c3_community_weight_amended exDbCommunity exSettings "A" 30).mpr
    ⟨("A", 1), by decide, rfl, by decide, by decide, by decide⟩

/-- C4 amended.  The portal pool is not a fixed-denominator share: it is a
largest-remainder allocation of `settings.portal_pool` over the weight map
of `get_weights_portal`, whose entries are the wallets of registered users
and of the portal snapshot with positive weight
`70*min(max(0,funded), max(0,cap)) + 3*(6*max(0,qearn) + 4*max(0,portal))`. -/
theorem c4_portal_weights_amended (db : Db) (s : QSettings) :
    (computeAllocations db s).portal
      = largestRemainderAllocation s.portal_pool (getWeightsPortal db s)
    ∧ ∀ w v, ((w, v) ∈ getWeightsPortal db s ↔
        ∃ u ∈ unionWallets (registeredWallets db) (db.portal_snapshot.map (·.1)),
          w = strUpper u
          ∧ v = 70 * min (max 0 (fundedTotal db.fundings u)) (max 0 s.funding_cap_qu)
                + 3 * (6 * max 0 (lookupAmount db.qearn_snapshot u)
                       + 4 * max 0 (lookupAmount db.portal_snapshot u))
          ∧ 0 < v) := by
  refine ⟨rfl, fun w v => ?_⟩
  simp only [getWeightsPortal, userWeightScaled_portal, List.mem_filterMap,
    Option.ite_none_right_eq_some, Option.some.injEq, Prod.mk.injEq]
  constructor
  · rintro ⟨u, hu, hpos, hw, hv⟩
    exact ⟨u, hu, hw.symm, hv.symm, hv ▸ hpos⟩
  · rintro ⟨u, hu, hw, hv, hpos⟩
    exact ⟨u, hu, hv ▸ hpos, hw.symm, hv.symm⟩

/-- C4 witness: the concrete database of `c4_counterexample` instantiates
the amended characterization. -/
theorem c4_portal_weights_amended_witness :
    (computeAllocations exDbPortal exSettings).portal
      = largestRemainderAllocation exSettings.portal_pool
          (getWeightsPortal exDbPortal exSettings)
    ∧ ("A", (70 : Int)) ∈ getWeightsPortal exDbPortal exSettings :=
  ⟨(c4_portal_weights_amended exDbPortal exSettings).1,
   ((c4_portal_weights_amended exDbPortal exSettings).2 "A" 70).mpr
     ⟨"A", by decide, by decide, by decide, by decide⟩⟩

/-- C9 witness: instantiation of `c9_amended` at the empty database. -/
theorem c9_amended_witness :
    (computeAllocationsCounted exDbEmpty exSettings 0).1
      = (computeAllocationsCounted exDbEmpty exSettings 5).1
    ∧ (computeAllocationsCounted exDbEmpty exSettings 0).2 = 0 + 3 :=
  ⟨(c9_amended exDbEmpty exSettings 0 5).1,
   (c9_amended exDbEmpty exSettings 0 5).2.2⟩

/-- Lists whose elements all fail `p` are unchanged by `dropWhile p`. -/
theorem dropWhile_eq_self_of_all {α} {p : α → Bool} :
    ∀ {l : List α}, (∀ c ∈ l, p c = false) → l.dropWhile p = l
  | [], _ => rfl
  | c :: cs, h => by
    simp [List.dropWhile_cons, h c (List.mem_cons_self c cs)]

/-- Lists whose elements are all fixed by `f` are unchanged by `map f`. -/
theorem map_eq_self_of_all {α} {f : α → α} :
    ∀ {l : List α}, (∀ c ∈ l, f c = c) → l.map f = l
  | [], _ => rfl
  | c :: cs, h => by
    simp only [List.map_cons, h c (List.mem_cons_self c cs)]
    rw [map_eq_self_of_all (fun x hx => h x (List.mem_cons_of_mem c hx))]

/-- Uppercase letters are not Python whitespace. -/
theorem upperAlpha_not_space {c : Char} (h1 : 65 ≤ c.toNat) (h2 : c.toNat ≤ 90) :
    pyIsSpace c = false := by
  simp only [pyIsSpace, Bool.or_eq_false_iff, beq_eq_false_iff_ne, ne_eq]
  omega

/-- Uppercase letters are fixed by `str.upper`. -/
theorem upperAlpha_upper_self {c : Char} (h1 : 65 ≤ c.toNat) (h2 : c.toNat ≤ 90) :
    pyCharUpper c = c := by
  unfold pyCharUpper
  rw [if_neg]
  omega

/-- Unpacking of the `^[A-Z]{60}$` test. -/
theorem matchesIdRe_spec {s : List Char} (h : matchesIdRe s = true) :
    s.length = 60 ∧ ∀ c ∈ s, 65 ≤ c.toNat ∧ c.toNat ≤ 90 := by
  simp only [matchesIdRe, Bool.and_eq_true, beq_iff_eq, List.all_eq_true,
    decide_eq_true_eq] at h
  exact ⟨h.1, fun c hc => ⟨(h.2 c hc).1, (h.2 c hc).2⟩⟩

/-- Strings of uppercase letters are fixed by strip-then-upper. -/
theorem stripUpper_id {s : List Char}
    (h : ∀ c ∈ s, 65 ≤ c.toNat ∧ c.toNat ≤ 90) :
    pyUpperChars (pyStripChars s) = s := by
  have hstrip : pyStripChars s = s := by
    unfold pyStripChars
    rw [dropWhile_eq_self_of_all (fun c hc => upperAlpha_not_space (h c hc).1 (h c hc).2)]
    rw [dropWhile_eq_self_of_all (fun c hc =>
      upperAlpha_not_space (h c (List.mem_reverse.mp hc)).1 (h c (List.mem_reverse.mp hc)).2)]
    exact List.reverse_reverse s
  rw [hstrip]
  exact map_eq_self_of_all (fun c hc => upperAlpha_upper_self (h c hc).1 (h c hc).2)

/-- Valid identities pass `normalize_identity` unchanged. -/
theorem normalizeIdentity_of_valid {s : List Char} (h : matchesIdRe s = true) :
    normalizeIdentity s = some s := by
  unfold normalizeIdentity
  rw [stripUpper_id (matchesIdRe_spec h).2, if_pos h]

/-- Chunk values of uppercase-letter chunks are non-negative. -/
theorem chunkVal_nonneg :
    ∀ {cs : List Char}, (∀ c ∈ cs, 65 ≤ c.toNat) → 0 ≤ chunkVal cs
  | [], _ => le_refl 0
  | c :: rest, h => by
    have hc := h c (List.mem_cons_self c rest)
    have ih := chunkVal_nonneg (fun x hx => h x (List.mem_cons_of_mem c hx))
    simp only [chunkVal, List.foldr_cons] at *
    omega

/-- Chunks of uppercase letters whose value fits eight bytes decode. -/
theorem decodeChunk_isSome {cs : List Char}
    (h : ∀ c ∈ cs, 65 ≤ c.toNat ∧ c.toNat ≤ 90)
    (hfit : chunkVal cs < 2 ^ 64) : ∃ b, decodeChunk cs = some b := by
  unfold decodeChunk
  rw [if_pos]
  · unfold toBytes8
    rw [if_pos ⟨chunkVal_nonneg (fun c hc => (h c hc).1), hfit⟩]
    exact ⟨_, rfl⟩
  · simp only [List.all_eq_true, Bool.and_eq_true, decide_eq_true_eq]
    exact fun c hc => ⟨(h c hc).1, (h c hc).2⟩

/-- C6 amended.  `normalize_identity` accepts any string whose trimmed,
uppercased form matches the 60-uppercase-letter shape (so lowercase input
is coerced, not rejected) and rejects exactly the strings whose trimmed,
uppercased form fails that shape; the public-key decode then succeeds for
every valid identity whose four base-26 chunks each fit eight bytes. -/
theorem c6_identity_codec_amended (s t : List Char)
    (hval : matchesIdRe s = true)
    (hfit : chunksFitB s = true)
    (hbad : matchesIdRe (pyUpperChars (pyStripChars t)) = false) :
    normalizeIdentity s = some s
    ∧ (identityToPublicKeyBytes s).isSome = true
    ∧ normalizeIdentity t = none := by
  have hnorm := normalizeIdentity_of_valid hval
  have hchars := (matchesIdRe_spec hval).2
  simp only [chunksFitB, List.all_eq_true, List.mem_cons, List.not_mem_nil,
    decide_eq_true_eq] at hfit
  have hsub0 : ((s.take 56).take 14 : List Char) ⊆ s :=
    fun x hx => List.take_subset _ _ (List.take_subset _ _ hx)
  have hsub1 : (((s.take 56).drop 14).take 14 : List Char) ⊆ s :=
    fun x hx => List.take_subset _ _ (List.drop_subset _ _ (List.take_subset _ _ hx))
  have hsub2 : (((s.take 56).drop 28).take 14 : List Char) ⊆ s :=
    fun x hx => List.take_subset _ _ (List.drop_subset _ _ (List.take_subset _ _ hx))
  have hsub3 : (((s.take 56).drop 42).take 14 : List Char) ⊆ s :=
    fun x hx => List.take_subset _ _ (List.drop_subset _ _ (List.take_subset _ _ hx))
  obtain ⟨b0, h0⟩ := decodeChunk_isSome (fun c hc => hchars c (hsub0 hc))
    (hfit _ (Or.inl rfl))
  obtain ⟨b1, h1⟩ := decodeChunk_isSome (fun c hc => hchars c (hsub1 hc))
    (hfit _ (Or.inr (Or.inl rfl)))
  obtain ⟨b2, h2⟩ := decodeChunk_isSome (fun c hc => hchars c (hsub2 hc))
    (hfit _ (Or.inr (Or.inr (Or.inl rfl))))
  obtain ⟨b3, h3⟩ := decodeChunk_isSome (fun c hc => hchars c (hsub3 hc))
    (hfit _ (Or.inr (Or.inr (Or.inr (Or.inl rfl)))))
  refine ⟨hnorm, ?_, ?_⟩
  · unfold identityToPublicKeyBytes
    rw [hnorm]
    simp only [h0, h1, h2, h3, Option.isSome_some]
  · unfold normalizeIdentity
    rw [if_neg]
    simp [hbad]

/-- C6 witness: the all-`A` identity is valid, its chunks fit, the empty
string is rejected, and the amended theorem applies. -/
theorem c6_identity_codec_witness :
    matchesIdRe (List.replicate 60 'A') = true
    ∧ chunksFitB (List.replicate 60 'A') = true
    ∧ matchesIdRe (pyUpperChars (pyStripChars ([] : List Char))) = false
    ∧ normalizeIdentity (List.replicate 60 'A') = some (List.replicate 60 'A')
    ∧ (identityToPublicKeyBytes (List.replicate 60 'A')).isSome = true
    ∧ normalizeIdentity ([] : List Char) = none := by
  have h := c6_identity_codec_amended (List.replicate 60 'A') [] (by decide)
    (by decide) (by decide)
  exact ⟨by decide, by decide, by decide, h.1, h.2.1, h.2.2⟩

/-- Appending one row adds its `qdoge_amount` to the trade-in total. -/
theorem tradeinsTotal_append (rows : List TradeinRow) (r : TradeinRow) :
    tradeinsTotal (rows ++ [r]) = tradeinsTotal rows + r.qdoge := by
  simp [tradeinsTotal]

/-- One accepted trade-in write keeps the recorded total within the pool. -/
theorem tradein_step_le {pool rate : Int} {rows rows' : List TradeinRow}
    {txId wallet : String} {shares tick : Int}
    (hinv : tradeinsTotal rows ≤ pool)
    (h : confirmTradeinDb pool rate rows txId wallet shares tick = .accepted rows') :
    tradeinsTotal rows' ≤ pool := by
  simp only [confirmTradeinDb] at h
  split at h
  · exact absurd h (by simp)
  · rename_i hle
    injection h with h'
    rw [← h']
    unfold insertIgnoreTradein
    split
    · exact hinv
    · rw [tradeinsTotal_append]
      dsimp only
      omega

/-- Any sequence of trade-in claims keeps the recorded total within the
pool. -/
theorem runTradeins_le {pool rate : Int} :
    ∀ (claims : List TradeinClaim) (rows : List TradeinRow),
      tradeinsTotal rows ≤ pool →
      tradeinsTotal (runTradeins pool rate rows claims) ≤ pool
  | [], _, hinv => hinv
  | c :: cs, rows, hinv => by
    unfold runTradeins
    cases hcase : confirmTradeinDb pool rate rows c.txId c.walletId c.shares c.tick with
    | accepted rows' => exact runTradeins_le cs rows' (tradein_step_le hinv hcase)
    | rejected msg => exact runTradeins_le cs rows hinv

/-- C7.  A validated trade-in claim is accepted iff
`runningTotal + shares*ratio ≤ tradein_pool`; otherwise it is rejected with
`PoolExhausted` and nothing is recorded.  Accepted claims are recorded
idempotently on `tx_id` (a duplicate leaves the table unchanged), and after
any sequence of claims the recorded trade-in total never exceeds the pool
budget. -/
theorem c7_tradein_pool_gate (pool rate : Int) (rows : List TradeinRow)
    (txId wallet : String) (shares tick : Int) (claims : List TradeinClaim)
    (hinv : tradeinsTotal rows ≤ pool) :
    (isAcceptedTradein (confirmTradeinDb pool rate rows txId wallet shares tick) = true
        ↔ tradeinsTotal rows + shares * rate ≤ pool)
    ∧ (confirmTradeinDb pool rate rows txId wallet shares tick
        = .rejected "trade-in pool exhausted"
        ↔ pool < tradeinsTotal rows + shares * rate)
    ∧ (∀ rows', confirmTradeinDb pool rate rows txId wallet shares tick = .accepted rows' →
        tradeinsTotal rows' ≤ pool
        ∧ ((∃ r ∈ rows, r.txId = txId) → rows' = rows))
    ∧ tradeinsTotal (runTradeins pool rate rows claims) ≤ pool := by
  refine ⟨?_, ?_, ?_, runTradeins_le claims rows hinv⟩
  · by_cases hgt : pool < tradeinsTotal rows + shares * rate
    · simp only [confirmTradeinDb,
        if_pos (show tradeinsTotal rows + shares * rate > pool from hgt)]
      simp only [isAcceptedTradein, Bool.false_eq_true, false_iff]
      omega
    · simp only [confirmTradeinDb,
        if_neg (show ¬ tradeinsTotal rows + shares * rate > pool from hgt)]
      simp only [isAcceptedTradein, true_iff]
      omega
  · by_cases hgt : pool < tradeinsTotal rows + shares * rate
    · simp only [confirmTradeinDb,
        if_pos (show tradeinsTotal rows + shares * rate > pool from hgt)]
      simpa using hgt
    · simp only [confirmTradeinDb,
        if_neg (show ¬ tradeinsTotal rows + shares * rate > pool from hgt)]
      constructor
      · intro hc
        cases hc
      · intro hlt
        exact absurd hlt hgt
  · intro rows' h
    refine ⟨tradein_step_le hinv h, fun hdup => ?_⟩
    simp only [confirmTradeinDb] at h
    split at h
    · exact absurd h (by simp)
    · injection h with h'
      rw [← h']
      unfold insertIgnoreTradein
      rw [if_pos]
      obtain ⟨r, hr, hrtx⟩ := hdup
      exact List.any_eq_true.mpr ⟨r, hr, by simp [hrtx]⟩

/-- C7 witness: a concrete accepted claim within a pool of 1000 at ratio
100. -/
theorem c7_tradein_pool_gate_witness :
    tradeinsTotal ([] : List TradeinRow) ≤ 1000
    ∧ (isAcceptedTradein (confirmTradeinDb 1000 100 [] "T1" "W" 2 5) = true
        ↔ tradeinsTotal ([] : List TradeinRow) + 2 * 100 ≤ 1000)
    ∧ tradeinsTotal (runTradeins 1000 100 [] [⟨"T1", "W", 2, 5⟩]) ≤ 1000 := by
  have h := c7_tradein_pool_gate 1000 100 [] "T1" "W" 2 5 [⟨"T1", "W", 2, 5⟩] (by decide)
  exact ⟨by decide, h.1, h.2.2.2⟩

/-- Appending one row adds its credit to that wallet's funded total only. -/
theorem fundedTotal_append (rows : List FundingRow) (r : FundingRow) (w : String) :
    fundedTotal (rows ++ [r]) w
      = fundedTotal rows w + (if r.walletId = w then r.credited else 0) := by
  simp only [fundedTotal, List.filter_append]
  rw [List.map_append, List.sum_append]
  by_cases hw : r.walletId = w
  · simp [hw]
  · simp [List.filter_cons, hw]

/-- One funding confirmation keeps every wallet's credited total within the
cap. -/
theorem funding_step_le {cap : Int} {rows : List FundingRow}
    {txId wallet : String} {amount_sent tick : Int}
    (hinv : ∀ w, fundedTotal rows w ≤ cap) :
    ∀ w, fundedTotal (confirmFundingDb cap rows txId wallet amount_sent tick).1 w ≤ cap := by
  intro w
  simp only [confirmFundingDb]
  unfold insertIgnoreFunding
  split
  · exact hinv w
  · rw [fundedTotal_append]
    dsimp only
    by_cases hw : wallet = w
    · rw [if_pos hw, hw]
      have := hinv w
      rw [← hw]
      have hww := hinv wallet
      omega
    · rw [if_neg hw]
      have := hinv w
      omega

/-- Any sequence of funding confirmations keeps every wallet's credited
total within the cap. -/
theorem runFundings_le {cap : Int} :
    ∀ (reqs : List FundingReq) (rows : List FundingRow),
      (∀ w, fundedTotal rows w ≤ cap) →
      ∀ w, fundedTotal (runFundings cap rows reqs) w ≤ cap
  | [], _, hinv => hinv
  | c :: cs, rows, hinv => by
    unfold runFundings
    exact runFundings_le cs _ (funding_step_le hinv)

/-- C10.  An accepted funding confirmation credits
`min(amount_sent, funding_cap_qu - previously_credited)` (never the full
amount beyond the cap), and after any sequence of accepted funding
confirmations every wallet's total credited funding stays at or below
`funding_cap_qu`. -/
theorem c10_funding_cap (cap : Int) (rows : List FundingRow) (txId wallet : String)
    (amount_sent tick : Int) (reqs : List FundingReq)
    (hinv : ∀ w, fundedTotal rows w ≤ cap) :
    (confirmFundingDb cap rows txId wallet amount_sent tick).2
      = min amount_sent (cap - fundedTotal rows wallet)
    ∧ (∀ w, fundedTotal (confirmFundingDb cap rows txId wallet amount_sent tick).1 w ≤ cap)
    ∧ (∀ w, fundedTotal (runFundings cap rows reqs) w ≤ cap) := by
  refine ⟨?_, funding_step_le hinv, runFundings_le reqs rows hinv⟩
  simp only [confirmFundingDb]
  have := hinv wallet
  omega

/-- C10 witness: a single confirmation of 40 against a cap of 100. -/
theorem c10_funding_cap_witness :
    (∀ w, fundedTotal ([] : List FundingRow) w ≤ 100)
    ∧ (confirmFundingDb 100 [] "t1" "W" 40 0).2
        = min 40 (100 - fundedTotal ([] : List FundingRow) "W")
    ∧ (∀ w, fundedTotal (runFundings 100 [] [⟨"t1", "W", 40, 0⟩]) w ≤ 100) := by
  have hinv : ∀ w, fundedTotal ([] : List FundingRow) w ≤ 100 := by
    intro w
    simp [fundedTotal]
  have h := c10_funding_cap 100 [] "t1" "W" 40 0 [⟨"t1", "W", 40, 0⟩] hinv
  exact ⟨hinv, h.1, h.2.2⟩

/-- Responses that never contain the target yield no match in any group. -/
theorem scanGroups_eq_none {target : String} :
    ∀ {groups : List (List TxEntry)},
      (∀ g ∈ groups, ∀ e ∈ g, e.txId ≠ target) →
      scanGroups target groups = none
  | [], _ => rfl
  | g :: gs, h => by
    have hfind : g.find? (fun e => e.txId == target) = none := by
      rw [List.find?_eq_none]
      intro e he
      simpa using h g (List.mem_cons_self g gs) e he
    unfold scanGroups
    rw [hfind]
    exact scanGroups_eq_none (fun g' hg' => h g' (List.mem_cons_of_mem g hg'))

/-- An attempt in which the target never appears queries every endpoint
variant exactly once and finds nothing. -/
theorem scanPaths_eq_none (env : PollEnv) (attempt : Nat) (target : String) :
    ∀ {paths : List String},
      (∀ url ∈ paths, ∀ g ∈ env.history attempt url, ∀ e ∈ g, e.txId ≠ target) →
      scanPaths env attempt target paths = (none, paths.length)
  | [], _ => rfl
  | url :: rest, h => by
    unfold scanPaths
    rw [scanGroups_eq_none (h url (List.mem_cons_self url rest))]
    rw [scanPaths_eq_none env attempt target
      (fun u hu => h u (List.mem_cons_of_mem url hu))]
    simp [List.length_cons]

/-- A retry loop whose attempts all find nothing terminates with the
not-found error after issuing one query per path per attempt. -/
theorem pollGo_exhaust (env : PollEnv) (target : String) (paths : List String)
    (hscan : ∀ a, scanPaths env a target paths = (none, paths.length)) :
    ∀ (attempts : List Nat) (lastErr : Option String) (cnt : Nat),
      attempts ≠ [] →
      pollGo env target paths attempts lastErr cnt
        = (.failed "transaction not found yet", cnt + attempts.length * paths.length)
  | [], _, _, hne => absurd rfl hne
  | a :: rest, lastErr, cnt, _ => by
    unfold pollGo
    rw [hscan a]
    dsimp only
    cases rest with
    | nil =>
      unfold pollGo
      simp
    | cons b bs =>
      rw [pollGo_exhaust env target paths hscan (b :: bs) _ _ (by simp)]
      refine congrArg _ ?_
      simp only [List.length_cons]
      ring

/-- C8.  When the transaction never appears in any transfer-history
response (and every RPC call succeeds), `get_tx_details` performs exactly
`maxRetries` attempts, issues exactly `maxRetries * 2` transfer-history
queries (two endpoint variants per attempt), and terminates with the
last observed state `"transaction not found yet"` — it never polls beyond
the retry ceiling. -/
theorem c8_retry_exhaustion (env : PollEnv) (rpcBase identity target : String)
    (maxRetries : Nat)
    (hnever : ∀ a url g e, g ∈ env.history a url → e ∈ g → e.txId ≠ target)
    (hpos : 1 ≤ maxRetries) :
    getTxDetailsModel env rpcBase identity target maxRetries
      = (.failed "transaction not found yet",
         maxRetries * (transferPaths rpcBase identity).length)
    ∧ (transferPaths rpcBase identity).length = 2 := by
  constructor
  · unfold getTxDetailsModel
    rw [pollGo_exhaust env target (transferPaths rpcBase identity)
      (fun a => scanPaths_eq_none env a target
        (fun url _ g hg e he => hnever a url g e hg he))
      _ none 0 ?_]
    · simp
    · simp only [ne_eq, List.map_eq_nil_iff, List.range_eq_nil]
      omega
  · rfl

/-- C8 witness: an environment with empty histories and three retries
issues six queries and fails with the not-found state. -/
theorem c8_retry_exhaustion_witness :
    getTxDetailsModel envEmptyPoll "https://rpc.qubic.org" "ID" "TX" 3
      = (.failed "transaction not found yet", 6)
    ∧ (1 : Nat) ≤ 3 := by
  have h := c8_retry_exhaustion envEmptyPoll "https://rpc.qubic.org" "ID" "TX" 3
    (by intro a url g e hg he; simp [envEmptyPoll] at hg) (by decide)
  have h1 := h.1
  rw [h.2] at h1
  norm_num at h1
  exact ⟨h1, by decide⟩
